import Mathlib

/-!
Shallow embedding of the `raio` single-threaded readiness-driven I/O reactor
(`src/src/lib.rs`), together with theorems settling the specification claims
about it.

The reactor thread runs `executor_loop`: each iteration performs one
non-blocking `try_recv` on the command channel, then blocks on `kevent`
with a constant 100 ns timeout, then dispatches the returned readiness
events.  The embedding models:

- the callback registry `readevents`, a fixed-length array of ten
  `Option<CallbackType>` slots indexed directly by the raw descriptor
  (an out-of-bounds index is a Rust panic, modelled as `none`);
- the kqueue interest set as a finite set of descriptors;
- boxed callbacks as a `cbId` identity plus a `behavior` function from the
  closure's invocation count (its captured state, the `hits` field) to the
  `EventControl` it returns;
- the dispatch phase faithfully to line 191 of the source: every iteration
  of the `for _ in 0..num` loop reads `ev_list[0].ident`, not the current
  event;
- the executor handle methods `accept`, `read`, `execute` and `shutdown`,
  including the fact that `shutdown` does not send `SHUTDOWN` (the send is
  commented out in the source) and that `execute` is `unimplemented!()`.

Runs of the loop are driven by an explicit schedule: each iteration is given
the commands that arrived on the channel since the previous `try_recv` and
the outcome of the `kevent` wait.  Invocations of callbacks are recorded in
a trace of `(descriptor, cbId)` pairs.
-/

namespace Raio

/-- Rust enum `EventControl` (lib.rs 21-24): a callback's decision whether its
registration is kept or torn down. -/
inductive EventControl
  | KEEP
  | DELETE
  deriving DecidableEq

/-- A boxed Rust callback closure.  `cbId` identifies the box, `behavior n`
is the control value the closure returns on its `n`-th invocation, and
`hits` is the number of invocations so far (the closure's captured state). -/
structure Callback where
  cbId : Nat
  behavior : Nat → EventControl
  hits : Nat

/-- Rust enum `CallbackType` (lib.rs 128-131). -/
inductive CallbackType
  | ACCEPT (cb : Callback)
  | READ (cb : Callback)

/-- The callback held by a `CallbackType`. -/
def CallbackType.cb : CallbackType → Callback
  | .ACCEPT c => c
  | .READ c => c

/-- Replace the callback held by a `CallbackType`, keeping the variant. -/
def CallbackType.withCb : CallbackType → Callback → CallbackType
  | .ACCEPT _, c => .ACCEPT c
  | .READ _, c => .READ c

/-- Rust enum `ThreadMessage` (lib.rs 59-69), the commands carried by the
mpsc channel from the executor handle to the reactor thread. -/
inductive ThreadMessage
  | SHUTDOWN
  | ADD_ACCEPT_EVENT (fd : Int) (callback : Callback)
  | ADD_READ_EVENT (fd : Int) (callback : Callback)

/-- Whether a message is the `SHUTDOWN` command. -/
def ThreadMessage.isShutdownMsg : ThreadMessage → Bool
  | .SHUTDOWN => true
  | _ => false

/-- Whether a message registers a callback for descriptor `fd`. -/
def ThreadMessage.targets : ThreadMessage → Int → Bool
  | .SHUTDOWN, _ => false
  | .ADD_ACCEPT_EVENT g _, fd => g == fd
  | .ADD_READ_EVENT g _, fd => g == fd

/-- The reactor-owned state of `executor_loop`: the callback registry
`readevents` (lib.rs 135, a fixed array of ten option slots indexed by the
raw descriptor) and the set of descriptors registered with the kqueue. -/
structure LoopState where
  readevents : List (Option CallbackType)
  kq : List Int

/-- The state at the top of `executor_loop`: ten empty registry slots
(lib.rs 135) and an empty kqueue interest set. -/
def initState : LoopState := ⟨List.replicate 10 none, []⟩

/-- Rust `readevents[fd as usize]` read.  The outer `none` models the
index-out-of-bounds panic (a negative descriptor casts to a huge `usize`,
so it is out of bounds too); `some v` is the array cell's content. -/
def regGet (l : List (Option CallbackType)) (fd : Int) : Option (Option CallbackType) :=
  if 0 ≤ fd then l[fd.toNat]? else none

/-- Rust `readevents[fd as usize] = v` write.  `none` models the
index-out-of-bounds panic. -/
def regSet (l : List (Option CallbackType)) (fd : Int) (v : Option CallbackType) :
    Option (List (Option CallbackType)) :=
  if 0 ≤ fd ∧ fd.toNat < l.length then some (l.set fd.toNat v) else none

/-- Effect on the kqueue interest set of `kevent` with `EV_ADD` for `fd`
(idempotent addition of read interest). -/
def kqAdd (kq : List Int) (fd : Int) : List Int :=
  if fd ∈ kq then kq else fd :: kq

/-- Effect on the kqueue interest set of `kevent` with `EV_DELETE` for `fd`. -/
def kqDel (kq : List Int) (fd : Int) : List Int :=
  kq.filter (fun g => decide (g ≠ fd))

/-- One arm of the drain `match receiver.try_recv()` (lib.rs 141-178) for a
received message.  `none` models a panic; otherwise the result is
`(broke, s)` where `broke` records whether the arm was `SHUTDOWN`'s `break`.
`ADD_ACCEPT_EVENT` and `ADD_READ_EVENT` store the callback in the registry
slot of their descriptor and add read interest to the kqueue. -/
def processMessage (s : LoopState) (m : ThreadMessage) : Option (Bool × LoopState) :=
  match m with
  | .SHUTDOWN => some (true, s)
  | .ADD_ACCEPT_EVENT fd cb =>
    match regSet s.readevents fd (some (.ACCEPT cb)) with
    | none => none
    | some l => some (false, ⟨l, kqAdd s.kq fd⟩)
  | .ADD_READ_EVENT fd cb =>
    match regSet s.readevents fd (some (.READ cb)) with
    | none => none
    | some l => some (false, ⟨l, kqAdd s.kq fd⟩)

/-- A trace of callback invocations: `(descriptor, cbId)` per invocation. -/
abbrev Trace := List (Int × Nat)

/-- One iteration of the dispatch `for` body (lib.rs 190-247) for the
descriptor `fd` it examines: if a registration exists, invoke its callback
(recording `(fd, cbId)` in the trace and advancing the closure's invocation
count), then apply the returned `EventControl`: `DELETE` removes read
interest from the kqueue and takes the registry slot; `KEEP` leaks the
descriptor back and leaves the registration in place.  The `none` state
models the indexing panic. -/
def dispatchOnce (s : LoopState) (fd : Int) : Option LoopState × Trace :=
  match regGet s.readevents fd with
  | none => (none, [])
  | some none => (some s, [])
  | some (some cbt) =>
    match cbt.cb.behavior cbt.cb.hits with
    | .DELETE =>
      match regSet s.readevents fd none with
      | none => (none, [(fd, cbt.cb.cbId)])
      | some l => (some ⟨l, kqDel s.kq fd⟩, [(fd, cbt.cb.cbId)])
    | .KEEP =>
      match regSet s.readevents fd
          (some (cbt.withCb (Callback.mk cbt.cb.cbId cbt.cb.behavior (cbt.cb.hits + 1)))) with
      | none => (none, [(fd, cbt.cb.cbId)])
      | some l => (some ⟨l, s.kq⟩, [(fd, cbt.cb.cbId)])

/-- The dispatch `for _ in 0..num` loop (lib.rs 190-247), faithful to line
191 of the source: every one of the `num` iterations reads
`ev_list[0].ident` — the first event of the batch — rather than the event
at the loop index. -/
def dispatchPhase (evList : List Int) : Nat → LoopState → Option LoopState × Trace
  | 0, s => (some s, [])
  | n + 1, s =>
    match dispatchOnce s (evList.headD 0) with
    | (none, tr) => (none, tr)
    | (some s1, tr) =>
      match dispatchPhase evList n s1 with
      | (o, tr2) => (o, tr ++ tr2)

/-- Outcome of the blocking `kevent` wait (lib.rs 180-182): `err` is
`nev = -1`, and `events l` is `nev = l.length` with the idents of the
returned events being `l` in order. -/
inductive WaitResult
  | err
  | events (l : List Int)

/-- Result of one iteration of the outer `loop`: the commands still pending
on the channel, whether the iteration hit `break`, whether it panicked, the
resulting reactor state (the last consistent one if it panicked), and the
trace of callback invocations. -/
structure IterResult where
  queue : List ThreadMessage
  broke : Bool
  panicked : Bool
  state : LoopState
  trace : Trace

/-- The wait-and-dispatch part of an iteration (lib.rs 180-250), after the
drain arm has run: a `-1` wait is logged and skipped, otherwise the event
batch is dispatched. -/
def afterDrain (q : List ThreadMessage) (s : LoopState) (w : WaitResult) : IterResult :=
  match w with
  | .err => ⟨q, false, false, s, []⟩
  | .events l =>
    match dispatchPhase l l.length s with
    | (none, tr) => ⟨q, false, true, s, tr⟩
    | (some s2, tr) => ⟨q, false, false, s2, tr⟩

/-- One full iteration of `executor_loop`'s outer `loop` (lib.rs 140-251):
a single non-blocking `try_recv` (at most one command is popped — an empty
channel is the `Err(_) => {}` arm), then the `kevent` wait with outcome
`w`, then the dispatch phase. -/
def loopIter (q : List ThreadMessage) (s : LoopState) (w : WaitResult) : IterResult :=
  match q with
  | [] => afterDrain [] s w
  | m :: rest =>
    match processMessage s m with
    | none => ⟨rest, false, true, s, []⟩
    | some (true, s1) => ⟨rest, true, false, s1, []⟩
    | some (false, s1) => afterDrain rest s1 w

/-- How a run of the loop over a finite schedule ended: still `running`
(the schedule was exhausted), `broke` out of the loop, or `panicked`. -/
inductive Outcome
  | running
  | broke
  | panicked
  deriving DecidableEq

/-- Result of running the loop over a schedule of iterations. -/
structure RunResult where
  outcome : Outcome
  queue : List ThreadMessage
  state : LoopState
  trace : Trace

/-- Run `executor_loop` over a schedule: each `IterInput` supplies the
commands that arrived on the channel since the previous `try_recv` and the
outcome of this iteration's `kevent` wait. -/
structure IterInput where
  arrivals : List ThreadMessage
  wait : WaitResult

/-- Run the loop over a finite schedule of iterations, accumulating the
invocation trace, stopping early on `break` or on a panic. -/
def run : List IterInput → List ThreadMessage → LoopState → RunResult
  | [], q, s => ⟨.running, q, s, []⟩
  | it :: rest, q, s =>
    let r := loopIter (q ++ it.arrivals) s it.wait
    if r.panicked then ⟨.panicked, r.queue, r.state, r.trace⟩
    else if r.broke then ⟨.broke, r.queue, r.state, r.trace⟩
    else
      let rr := run rest r.queue r.state
      ⟨rr.outcome, rr.queue, rr.state, r.trace ++ rr.trace⟩

/-- The `timespec` passed to the blocking `kevent` call (lib.rs 136-137
declare it; lib.rs 181 passes it): mirrors `libc::timespec`. -/
structure Timespec where
  tv_sec : Int
  tv_nsec : Int
  deriving DecidableEq

/-- The wait timeout of `executor_loop` (lib.rs 137): the constant
`timespec` with `tv_sec` 0 and `tv_nsec` 100.  A `none` here would model
passing a null timeout pointer (block indefinitely), which the code never
does. -/
def waitTimeout : Option Timespec := some ⟨0, 100⟩

/-- Messages enqueued by `SingleThreadedExecutor::shutdown` (lib.rs
110-119): the `ThreadMessage::SHUTDOWN` send is commented out in the
source, so shutdown enqueues nothing — it only joins the reactor thread. -/
def shutdown_sends : List ThreadMessage := []

/-- Error of `Sender::send`: the channel is disconnected because the
receiving reactor thread is gone. -/
inductive SendError
  | disconnected
  deriving DecidableEq

/-- Rust `Sender::send(m)`: succeeds iff the receiver (the reactor thread)
is still alive. -/
def channelSend (receiverAlive : Bool) (m : ThreadMessage) : Except SendError ThreadMessage :=
  if receiverAlive then .ok m else .error .disconnected

/-- How a call into the executor handle returns to the caller: normally, or
by aborting the calling thread with a panic. -/
inductive CallOutcome
  | returned
  | panicked
  deriving DecidableEq

/-- Code `SingleThreadedExecutor::accept` (lib.rs 96-101): sends
`ADD_ACCEPT_EVENT` and calls `.unwrap()` on the send result, so a send
failure is a panic of the calling thread, not a returned error. -/
def executorAccept (receiverAlive : Bool) (fd : Int) (cb : Callback) : CallOutcome :=
  match channelSend receiverAlive (.ADD_ACCEPT_EVENT fd cb) with
  | .ok _ => .returned
  | .error _ => .panicked

/-- Code `SingleThreadedExecutor::read` (lib.rs 103-108): sends
`ADD_READ_EVENT` and calls `.unwrap()` on the send result, so a send
failure is a panic of the calling thread, not a returned error. -/
def executorRead (receiverAlive : Bool) (fd : Int) (cb : Callback) : CallOutcome :=
  match channelSend receiverAlive (.ADD_READ_EVENT fd cb) with
  | .ok _ => .returned
  | .error _ => .panicked

/-- How a call to `execute` ends: with a command enqueued and a normal
return, or with an unconditional panic. -/
inductive ExecuteResult
  | enqueued (m : ThreadMessage)
  | panickedUnimplemented

/-- Code `SingleThreadedExecutor::execute` (lib.rs 88-90): the whole body
is the Rust stub for missing functionality, which panics unconditionally;
no command is ever enqueued (and `ThreadMessage` has no Execute variant). -/
def executorExecute : ExecuteResult := .panickedUnimplemented

/-- Rust `Future` as it stands in the source (lib.rs 26): an empty struct
with no fields and no methods. -/
structure Future

/-- Modelled from the spec: the Completion Cell of §4.4.  The repository's
`Future` (lib.rs 26) is an empty placeholder with no implementation — no
`resolve`, `is_ready` or `wait` exist in src — so the cell is modelled from
the spec's words: a shared one-shot result slot. -/
structure CompletionCell (α : Type) where
  value : Option α

/-- Modelled from the spec: a fresh, unresolved Completion Cell (§4.4). -/
def CompletionCell.new {α : Type} : CompletionCell α := ⟨none⟩

/-- Modelled from the spec: `resolve(value)` sets the result exactly once;
a second call is a no-op (§4.4). -/
def CompletionCell.resolve {α : Type} (c : CompletionCell α) (v : α) : CompletionCell α :=
  match c.value with
  | some _ => c
  | none => ⟨some v⟩

/-- Modelled from the spec: `is_ready()` observes whether the cell has been
resolved (§4.4). -/
def CompletionCell.is_ready {α : Type} (c : CompletionCell α) : Bool :=
  c.value.isSome

/-- A callback box that always answers `KEEP`, starting uninvoked. -/
def keepCb (id : Nat) : Callback := ⟨id, fun _ => .KEEP, 0⟩

/-- A callback box that always answers `DELETE`, starting uninvoked. -/
def deleteCb (id : Nat) : Callback := ⟨id, fun _ => .DELETE, 0⟩

/-- A concrete registry state for exercising the dispatch phase: an accept
callback (id 30) registered at descriptor 3 and a read callback (id 40)
registered at descriptor 4, both always answering `KEEP`. -/
def c1State : LoopState :=
  ⟨[none, none, none, some (.ACCEPT (keepCb 30)), some (.READ (keepCb 40)),
    none, none, none, none, none], [3, 4]⟩

/-- Two registration commands pending on the channel at once: an accept
callback for descriptor 1 and another for descriptor 2. -/
def c3Queue : List ThreadMessage :=
  [.ADD_ACCEPT_EVENT 1 (keepCb 10), .ADD_ACCEPT_EVENT 2 (keepCb 20)]

/-- A concrete registry state with a single read callback (id 70) at
descriptor 3 that answers `DELETE` on every invocation. -/
def c7State : LoopState :=
  ⟨[none, none, none, some (.READ (deleteCb 70)), none, none, none, none, none, none], [3]⟩

/-- A concrete registry state with an existing accept registration (id 90)
at descriptor 3, for observing silent replacement. -/
def c10State : LoopState :=
  ⟨[none, none, none, some (.ACCEPT (keepCb 90)), none, none, none, none, none, none], [3]⟩

end Raio

namespace Raio

lemma regGet_nonneg {l : List (Option CallbackType)} {fd : Int} {v : Option CallbackType}
    (h : regGet l fd = some v) : 0 ≤ fd := by
  by_contra hneg
  simp [regGet, hneg] at h

lemma regGet_lt {l : List (Option CallbackType)} {fd : Int} {v : Option CallbackType}
    (h : regGet l fd = some v) : fd.toNat < l.length := by
  have h0 : 0 ≤ fd := regGet_nonneg h
  rw [regGet, if_pos h0] at h
  by_contra hge
  rw [List.getElem?_eq_none (by omega)] at h
  exact Option.noConfusion h

lemma regSet_eq_some {l l' : List (Option CallbackType)} {g : Int} {v : Option CallbackType}
    (h : regSet l g v = some l') :
    0 ≤ g ∧ g.toNat < l.length ∧ l' = l.set g.toNat v := by
  rw [regSet] at h
  split at h
  · rename_i hc
    exact ⟨hc.1, hc.2, (Option.some_inj.mp h).symm⟩
  · exact Option.noConfusion h

lemma regSet_of_bounds {l : List (Option CallbackType)} {g : Int} (v : Option CallbackType)
    (h0 : 0 ≤ g) (hlt : g.toNat < l.length) :
    regSet l g v = some (l.set g.toNat v) := by
  rw [regSet, if_pos ⟨h0, hlt⟩]

lemma regGet_regSet_self {l l' : List (Option CallbackType)} {g : Int} {v : Option CallbackType}
    (h : regSet l g v = some l') : regGet l' g = some v := by
  obtain ⟨h0, hlt, rfl⟩ := regSet_eq_some h
  rw [regGet, if_pos h0]
  exact List.getElem?_set_eq_of_lt v hlt

lemma regGet_regSet_other {l l' : List (Option CallbackType)} {g fd : Int}
    {v : Option CallbackType} (h : regSet l g v = some l') (hne : fd ≠ g) :
    regGet l' fd = regGet l fd := by
  obtain ⟨h0, hlt, rfl⟩ := regSet_eq_some h
  by_cases hf : 0 ≤ fd
  · have hnat : g.toNat ≠ fd.toNat := by omega
    rw [regGet, regGet, if_pos hf, if_pos hf, List.getElem?_set_ne hnat]
  · rw [regGet, regGet, if_neg hf, if_neg hf]

lemma processMessage_unreg {s : LoopState} {m : ThreadMessage} {fd : Int}
    (ht : m.targets fd = false)
    (hu : regGet s.readevents fd = some none) :
    ∀ b s1, processMessage s m = some (b, s1) → regGet s1.readevents fd = some none := by
  intro b s1 hp
  cases m with
  | SHUTDOWN =>
    simp only [processMessage, Option.some_inj, Prod.mk.injEq] at hp
    rw [← hp.2]
    exact hu
  | ADD_ACCEPT_EVENT g cb =>
    have hg : fd ≠ g := by
      simp only [ThreadMessage.targets, beq_eq_false_iff_ne, ne_eq] at ht
      exact fun he => ht he.symm
    rw [processMessage] at hp
    rcases hr : regSet s.readevents g (some (.ACCEPT cb)) with _ | l
    · rw [hr] at hp; exact Option.noConfusion hp
    · rw [hr] at hp
      simp only [Option.some_inj, Prod.mk.injEq] at hp
      rw [← hp.2]
      rw [regGet_regSet_other hr hg]
      exact hu
  | ADD_READ_EVENT g cb =>
    have hg : fd ≠ g := by
      simp only [ThreadMessage.targets, beq_eq_false_iff_ne, ne_eq] at ht
      exact fun he => ht he.symm
    rw [processMessage] at hp
    rcases hr : regSet s.readevents g (some (.READ cb)) with _ | l
    · rw [hr] at hp; exact Option.noConfusion hp
    · rw [hr] at hp
      simp only [Option.some_inj, Prod.mk.injEq] at hp
      rw [← hp.2]
      rw [regGet_regSet_other hr hg]
      exact hu

lemma dispatchOnce_trace_fst (s : LoopState) (f : Int) :
    ∀ p ∈ (dispatchOnce s f).2, p.1 = f := by
  intro p hp
  rw [dispatchOnce] at hp
  split at hp
  · simp at hp
  · simp at hp
  · split at hp
    · split at hp <;> simp at hp <;> simp [hp]
    · split at hp <;> simp at hp <;> simp [hp]

lemma dispatchOnce_skip {s : LoopState} {fd : Int}
    (hu : regGet s.readevents fd = some none) :
    dispatchOnce s fd = (some s, []) := by
  rw [dispatchOnce, hu]

lemma dispatchOnce_unreg {s : LoopState} {fd : Int} (f : Int)
    (hu : regGet s.readevents fd = some none) :
    ∀ s1, (dispatchOnce s f).1 = some s1 → regGet s1.readevents fd = some none := by
  intro s1 h1
  by_cases hef : f = fd
  · subst hef
    rw [dispatchOnce_skip hu] at h1
    simp only [Option.some_inj] at h1
    rw [← h1]
    exact hu
  · have hne : fd ≠ f := fun he => hef he.symm
    rw [dispatchOnce] at h1
    split at h1
    · exact Option.noConfusion h1
    · simp only [Option.some_inj] at h1
      rw [← h1]
      exact hu
    · split at h1
      · split at h1
        · exact Option.noConfusion h1
        · rename_i l hr
          simp only [Option.some_inj] at h1
          rw [← h1]
          show regGet l fd = some none
          rw [regGet_regSet_other hr hne]
          exact hu
      · split at h1
        · exact Option.noConfusion h1
        · rename_i l hr
          simp only [Option.some_inj] at h1
          rw [← h1]
          show regGet l fd = some none
          rw [regGet_regSet_other hr hne]
          exact hu

lemma dispatchPhase_unreg {fd : Int} (evList : List Int) :
    ∀ (n : Nat) (s : LoopState), regGet s.readevents fd = some none →
      (∀ p ∈ (dispatchPhase evList n s).2, p.1 ≠ fd) ∧
      (∀ s1, (dispatchPhase evList n s).1 = some s1 →
        regGet s1.readevents fd = some none) := by
  intro n
  induction n with
  | zero =>
    intro s hu
    refine ⟨by simp [dispatchPhase], ?_⟩
    intro s1 h1
    simp only [dispatchPhase, Option.some_inj] at h1
    rw [← h1]
    exact hu
  | succ n ih =>
    intro s hu
    by_cases hf : evList.headD 0 = fd
    · have hdo : dispatchOnce s (evList.headD 0) = (some s, []) := by
        rw [hf]
        exact dispatchOnce_skip hu
      have hph : dispatchPhase evList (n + 1) s = dispatchPhase evList n s := by
        rw [dispatchPhase, hdo]
        rcases hph2 : dispatchPhase evList n s with ⟨o, tr⟩
        simp [hph2]
      rw [hph]
      exact ih s hu
    · rcases hdo : dispatchOnce s (evList.headD 0) with ⟨o, tr⟩
      have htr : ∀ p ∈ tr, p.1 ≠ fd := by
        intro p hp
        have := dispatchOnce_trace_fst s (evList.headD 0) p (by rw [hdo]; exact hp)
        rw [this]
        exact hf
      cases o with
      | none =>
        have hph : dispatchPhase evList (n + 1) s = (none, tr) := by
          rw [dispatchPhase, hdo]
        rw [hph]
        refine ⟨htr, ?_⟩
        intro s1 h1
        exact Option.noConfusion h1
      | some s1 =>
        have hu1 : regGet s1.readevents fd = some none := by
          apply dispatchOnce_unreg (evList.headD 0) hu
          rw [hdo]
        obtain ⟨ihtr, ihst⟩ := ih s1 hu1
        have hph : dispatchPhase evList (n + 1) s =
            ((dispatchPhase evList n s1).1, tr ++ (dispatchPhase evList n s1).2) := by
          rw [dispatchPhase, hdo]
        rw [hph]
        constructor
        · intro p hp
          rcases List.mem_append.mp hp with h | h
          · exact htr p h
          · exact ihtr p h
        · exact ihst

lemma afterDrain_err (q : List ThreadMessage) (s : LoopState) :
    afterDrain q s .err = ⟨q, false, false, s, []⟩ := rfl

lemma afterDrain_events_none {l : List Int} {s : LoopState} {tr : Trace}
    (q : List ThreadMessage) (h : dispatchPhase l l.length s = (none, tr)) :
    afterDrain q s (.events l) = ⟨q, false, true, s, tr⟩ := by
  show (match dispatchPhase l l.length s with
    | (none, tr) => (⟨q, false, true, s, tr⟩ : IterResult)
    | (some s2, tr) => ⟨q, false, false, s2, tr⟩) = ⟨q, false, true, s, tr⟩
  rw [h]

lemma afterDrain_events_some {l : List Int} {s s2 : LoopState} {tr : Trace}
    (q : List ThreadMessage) (h : dispatchPhase l l.length s = (some s2, tr)) :
    afterDrain q s (.events l) = ⟨q, false, false, s2, tr⟩ := by
  show (match dispatchPhase l l.length s with
    | (none, tr) => (⟨q, false, true, s, tr⟩ : IterResult)
    | (some s2, tr) => ⟨q, false, false, s2, tr⟩) = ⟨q, false, false, s2, tr⟩
  rw [h]

lemma afterDrain_queue (q : List ThreadMessage) (s : LoopState) (w : WaitResult) :
    (afterDrain q s w).queue = q := by
  cases w with
  | err => rw [afterDrain_err]
  | events l =>
    rcases hph : dispatchPhase l l.length s with ⟨o, tr⟩
    cases o with
    | none => rw [afterDrain_events_none q hph]
    | some s2 => rw [afterDrain_events_some q hph]

lemma afterDrain_broke (q : List ThreadMessage) (s : LoopState) (w : WaitResult) :
    (afterDrain q s w).broke = false := by
  cases w with
  | err => rw [afterDrain_err]
  | events l =>
    rcases hph : dispatchPhase l l.length s with ⟨o, tr⟩
    cases o with
    | none => rw [afterDrain_events_none q hph]
    | some s2 => rw [afterDrain_events_some q hph]

lemma afterDrain_unreg (q : List ThreadMessage) (s : LoopState) (w : WaitResult) {fd : Int}
    (hu : regGet s.readevents fd = some none) :
    (∀ p ∈ (afterDrain q s w).trace, p.1 ≠ fd) ∧
    ((afterDrain q s w).panicked = false →
      regGet (afterDrain q s w).state.readevents fd = some none) := by
  cases w with
  | err =>
    rw [afterDrain_err]
    exact ⟨by simp, fun _ => hu⟩
  | events l =>
    obtain ⟨htr, hst⟩ := dispatchPhase_unreg l l.length s hu
    rcases hph : dispatchPhase l l.length s with ⟨o, tr⟩
    rw [hph] at htr hst
    cases o with
    | none =>
      rw [afterDrain_events_none q hph]
      exact ⟨htr, fun hfalse => absurd hfalse (by simp)⟩
    | some s2 =>
      rw [afterDrain_events_some q hph]
      exact ⟨htr, fun _ => hst s2 rfl⟩

lemma loopIter_nil (s : LoopState) (w : WaitResult) :
    loopIter [] s w = afterDrain [] s w := rfl

lemma loopIter_cons_panic {s : LoopState} {m : ThreadMessage}
    (rest : List ThreadMessage) (w : WaitResult) (h : processMessage s m = none) :
    loopIter (m :: rest) s w = ⟨rest, false, true, s, []⟩ := by
  show (match processMessage s m with
    | none => (⟨rest, false, true, s, []⟩ : IterResult)
    | some (true, s1) => ⟨rest, true, false, s1, []⟩
    | some (false, s1) => afterDrain rest s1 w) = ⟨rest, false, true, s, []⟩
  rw [h]

lemma loopIter_cons_break {s s1 : LoopState} {m : ThreadMessage}
    (rest : List ThreadMessage) (w : WaitResult) (h : processMessage s m = some (true, s1)) :
    loopIter (m :: rest) s w = ⟨rest, true, false, s1, []⟩ := by
  show (match processMessage s m with
    | none => (⟨rest, false, true, s, []⟩ : IterResult)
    | some (true, s1) => ⟨rest, true, false, s1, []⟩
    | some (false, s1) => afterDrain rest s1 w) = ⟨rest, true, false, s1, []⟩
  rw [h]

lemma loopIter_cons_go {s s1 : LoopState} {m : ThreadMessage}
    (rest : List ThreadMessage) (w : WaitResult) (h : processMessage s m = some (false, s1)) :
    loopIter (m :: rest) s w = afterDrain rest s1 w := by
  show (match processMessage s m with
    | none => (⟨rest, false, true, s, []⟩ : IterResult)
    | some (true, s1) => ⟨rest, true, false, s1, []⟩
    | some (false, s1) => afterDrain rest s1 w) = afterDrain rest s1 w
  rw [h]

lemma processMessage_cases (s : LoopState) (m : ThreadMessage) :
    processMessage s m = none ∨
    (m = .SHUTDOWN ∧ processMessage s m = some (true, s)) ∨
    (∃ s1, m.isShutdownMsg = false ∧ processMessage s m = some (false, s1)) := by
  cases m with
  | SHUTDOWN => exact Or.inr (Or.inl ⟨rfl, rfl⟩)
  | ADD_ACCEPT_EVENT g cb =>
    rw [processMessage]
    rcases hr : regSet s.readevents g (some (.ACCEPT cb)) with _ | l
    · exact Or.inl rfl
    · exact Or.inr (Or.inr ⟨⟨l, kqAdd s.kq g⟩, rfl, rfl⟩)
  | ADD_READ_EVENT g cb =>
    rw [processMessage]
    rcases hr : regSet s.readevents g (some (.READ cb)) with _ | l
    · exact Or.inl rfl
    · exact Or.inr (Or.inr ⟨⟨l, kqAdd s.kq g⟩, rfl, rfl⟩)

lemma loopIter_queue (q : List ThreadMessage) (s : LoopState) (w : WaitResult) :
    (loopIter q s w).queue = q.tail := by
  cases q with
  | nil =>
    rw [loopIter_nil, afterDrain_queue]
    rfl
  | cons m rest =>
    rcases processMessage_cases s m with h | ⟨_, h⟩ | ⟨s1, _, h⟩
    · rw [loopIter_cons_panic rest w h]
      rfl
    · rw [loopIter_cons_break rest w h]
      rfl
    · rw [loopIter_cons_go rest w h, afterDrain_queue]
      rfl

lemma loopIter_broke (q : List ThreadMessage) (s : LoopState) (w : WaitResult)
    (hq : ∀ m ∈ q, m.isShutdownMsg = false) :
    (loopIter q s w).broke = false := by
  cases q with
  | nil => rw [loopIter_nil, afterDrain_broke]
  | cons m rest =>
    rcases processMessage_cases s m with h | ⟨hm, h⟩ | ⟨s1, _, h⟩
    · rw [loopIter_cons_panic rest w h]
    · have := hq m (List.mem_cons_self m rest)
      rw [hm] at this
      exact absurd this (by simp [ThreadMessage.isShutdownMsg])
    · rw [loopIter_cons_go rest w h, afterDrain_broke]

lemma loopIter_unreg (q : List ThreadMessage) (s : LoopState) (w : WaitResult) {fd : Int}
    (hq : ∀ m ∈ q, m.targets fd = false)
    (hu : regGet s.readevents fd = some none) :
    (∀ p ∈ (loopIter q s w).trace, p.1 ≠ fd) ∧
    ((loopIter q s w).panicked = false →
      regGet (loopIter q s w).state.readevents fd = some none) := by
  cases q with
  | nil =>
    rw [loopIter_nil]
    exact afterDrain_unreg [] s w hu
  | cons m rest =>
    rcases processMessage_cases s m with h | ⟨_, h⟩ | ⟨s1, _, h⟩
    · rw [loopIter_cons_panic rest w h]
      exact ⟨by simp, fun hfalse => absurd hfalse (by simp)⟩
    · rw [loopIter_cons_break rest w h]
      have hs : regGet (Prod.snd (true, s)).readevents fd = some none := by
        have := processMessage_unreg (hq m (List.mem_cons_self m rest)) hu true s h
        exact this
      exact ⟨by simp, fun _ => hs⟩
    · rw [loopIter_cons_go rest w h]
      have hs1 : regGet s1.readevents fd = some none :=
        processMessage_unreg (hq m (List.mem_cons_self m rest)) hu false s1 h
      exact afterDrain_unreg rest s1 w hs1

lemma mem_of_tail {α : Type} {m : α} {l : List α} (h : m ∈ l.tail) : m ∈ l := by
  cases l with
  | nil => simp at h
  | cons a t => exact List.mem_cons_of_mem a h

lemma run_nil (q : List ThreadMessage) (s : LoopState) :
    run [] q s = ⟨.running, q, s, []⟩ := rfl

lemma run_cons (it : IterInput) (rest : List IterInput) (q : List ThreadMessage)
    (s : LoopState) :
    run (it :: rest) q s =
      (if (loopIter (q ++ it.arrivals) s it.wait).panicked then
        ⟨.panicked, (loopIter (q ++ it.arrivals) s it.wait).queue,
          (loopIter (q ++ it.arrivals) s it.wait).state,
          (loopIter (q ++ it.arrivals) s it.wait).trace⟩
      else if (loopIter (q ++ it.arrivals) s it.wait).broke then
        ⟨.broke, (loopIter (q ++ it.arrivals) s it.wait).queue,
          (loopIter (q ++ it.arrivals) s it.wait).state,
          (loopIter (q ++ it.arrivals) s it.wait).trace⟩
      else
        ⟨(run rest (loopIter (q ++ it.arrivals) s it.wait).queue
            (loopIter (q ++ it.arrivals) s it.wait).state).outcome,
          (run rest (loopIter (q ++ it.arrivals) s it.wait).queue
            (loopIter (q ++ it.arrivals) s it.wait).state).queue,
          (run rest (loopIter (q ++ it.arrivals) s it.wait).queue
            (loopIter (q ++ it.arrivals) s it.wait).state).state,
          (loopIter (q ++ it.arrivals) s it.wait).trace ++
            (run rest (loopIter (q ++ it.arrivals) s it.wait).queue
              (loopIter (q ++ it.arrivals) s it.wait).state).trace⟩) := rfl

lemma run_not_broke (inputs : List IterInput) : ∀ (q : List ThreadMessage) (s : LoopState),
    (∀ m ∈ q, m.isShutdownMsg = false) →
    (∀ it ∈ inputs, ∀ m ∈ it.arrivals, m.isShutdownMsg = false) →
    (run inputs q s).outcome ≠ Outcome.broke := by
  induction inputs with
  | nil =>
    intro q s _ _
    rw [run_nil]
    simp
  | cons it rest ih =>
    intro q s hq hin
    have hq2 : ∀ m ∈ q ++ it.arrivals, m.isShutdownMsg = false := by
      intro m hm
      rcases List.mem_append.mp hm with h | h
      · exact hq m h
      · exact hin it (List.mem_cons_self it rest) m h
    rw [run_cons]
    generalize hr : loopIter (q ++ it.arrivals) s it.wait = r
    have hbroke : r.broke = false := by
      rw [← hr]
      exact loopIter_broke _ s it.wait hq2
    have hqueue : ∀ m ∈ r.queue, m.isShutdownMsg = false := by
      intro m hm
      apply hq2
      apply mem_of_tail
      rw [← loopIter_queue (q ++ it.arrivals) s it.wait, hr]
      exact hm
    cases hrp : r.panicked with
    | true => simp [hrp]
    | false =>
      simp only [hrp, hbroke, if_false, Bool.false_eq_true]
      exact ih r.queue r.state hqueue (fun it2 h2 => hin it2 (List.mem_cons_of_mem it h2))

lemma run_unreg {fd : Int} (inputs : List IterInput) : ∀ (q : List ThreadMessage) (s : LoopState),
    (∀ m ∈ q, m.targets fd = false) →
    (∀ it ∈ inputs, ∀ m ∈ it.arrivals, m.targets fd = false) →
    regGet s.readevents fd = some none →
    ∀ p ∈ (run inputs q s).trace, p.1 ≠ fd := by
  induction inputs with
  | nil =>
    intro q s _ _ _ p hp
    rw [run_nil] at hp
    simp at hp
  | cons it rest ih =>
    intro q s hq hin hu
    have hq2 : ∀ m ∈ q ++ it.arrivals, m.targets fd = false := by
      intro m hm
      rcases List.mem_append.mp hm with h | h
      · exact hq m h
      · exact hin it (List.mem_cons_self it rest) m h
    obtain ⟨htr, hst⟩ := loopIter_unreg (q ++ it.arrivals) s it.wait hq2 hu
    rw [run_cons]
    generalize hr : loopIter (q ++ it.arrivals) s it.wait = r
    rw [hr] at htr hst
    have hqueue : ∀ m ∈ r.queue, m.targets fd = false := by
      intro m hm
      apply hq2
      apply mem_of_tail
      rw [← loopIter_queue (q ++ it.arrivals) s it.wait, hr]
      exact hm
    cases hrp : r.panicked with
    | true =>
      simp only [hrp, if_true]
      exact htr
    | false =>
      cases hrb : r.broke with
      | true =>
        simp only [hrp, hrb, if_true, if_false, Bool.false_eq_true]
        exact htr
      | false =>
        simp only [hrp, hrb, if_false, Bool.false_eq_true]
        intro p hp
        rcases List.mem_append.mp hp with h | h
        · exact htr p h
        · exact ih r.queue r.state hqueue
            (fun it2 h2 => hin it2 (List.mem_cons_of_mem it h2)) (hst hrp) p h

lemma not_mem_kqDel (kq : List Int) (fd : Int) : fd ∉ kqDel kq fd := by
  intro h
  rw [kqDel] at h
  have := (List.mem_filter.mp h).2
  simp at this

lemma dispatchOnce_delete {s : LoopState} {fd : Int} {cbt : CallbackType}
    (hreg : regGet s.readevents fd = some (some cbt))
    (hdel : cbt.cb.behavior cbt.cb.hits = EventControl.DELETE) :
    dispatchOnce s fd =
      (some ⟨s.readevents.set fd.toNat none, kqDel s.kq fd⟩, [(fd, cbt.cb.cbId)]) := by
  have h0 : 0 ≤ fd := regGet_nonneg hreg
  have hlt : fd.toNat < s.readevents.length := regGet_lt hreg
  have hset : regSet s.readevents fd none = some (s.readevents.set fd.toNat none) :=
    regSet_of_bounds none h0 hlt
  rw [dispatchOnce, hreg]
  show (match cbt.cb.behavior cbt.cb.hits with
    | EventControl.DELETE =>
      match regSet s.readevents fd none with
      | none => (none, [(fd, cbt.cb.cbId)])
      | some l => (some (⟨l, kqDel s.kq fd⟩ : LoopState), [(fd, cbt.cb.cbId)])
    | EventControl.KEEP =>
      match regSet s.readevents fd
          (some (cbt.withCb (Callback.mk cbt.cb.cbId cbt.cb.behavior (cbt.cb.hits + 1)))) with
      | none => (none, [(fd, cbt.cb.cbId)])
      | some l => (some (⟨l, s.kq⟩ : LoopState), [(fd, cbt.cb.cbId)])) = _
  rw [hdel, hset]

/-- Claim C1 (refuting evaluation): with an accept callback registered at
descriptor 3 and a read callback at descriptor 4, a single wait returning
the two-event batch with idents 3 and 4 makes the dispatch phase invoke
descriptor 3's callback twice and descriptor 4's callback never — because
line 191 of the source reads `ev_list[0]` in every iteration — contradicting
the claim that each ready descriptor's callback is invoked exactly once per
readiness occurrence. -/
theorem c1_dispatch_reads_only_first_event :
    (dispatchPhase [3, 4] 2 c1State).2 = [(3, 30), (3, 30)] ∧
    (dispatchPhase [3, 4] 2 c1State).2.filter (fun p => p.1 == 4) = [] :=
  ⟨rfl, rfl⟩

/-- Claim C2 (refuting evaluation): `shutdown` enqueues no command at all
(the `SHUTDOWN` send is commented out in the source), and the reactor loop
leaves its outer `loop` only by receiving `SHUTDOWN`, so over any schedule
whose commands contain no `SHUTDOWN` the loop never breaks — hence `join`
after `shutdown` never returns, contradicting the claim. -/
theorem c2_shutdown_sends_nothing_and_loop_never_breaks :
    shutdown_sends = [] ∧
    ∀ (inputs : List IterInput) (q : List ThreadMessage) (s : LoopState),
      (∀ m ∈ q, m.isShutdownMsg = false) →
      (∀ it ∈ inputs, ∀ m ∈ it.arrivals, m.isShutdownMsg = false) →
      (run inputs q s).outcome ≠ Outcome.broke :=
  ⟨rfl, fun inputs q s hq hin => run_not_broke inputs q s hq hin⟩

/-- Witness for the C2 theorem at a concrete schedule. -/
theorem c2_shutdown_sends_nothing_and_loop_never_breaks_witness :
    shutdown_sends = [] ∧ (run [] [] initState).outcome ≠ Outcome.broke :=
  ⟨c2_shutdown_sends_nothing_and_loop_never_breaks.1,
   c2_shutdown_sends_nothing_and_loop_never_breaks.2 [] [] initState
     (by intro m hm; simp at hm) (by intro it hit; simp at hit)⟩

/-- Claim C3 counterexample: with two registration commands pending before
an iteration, after that iteration's drain phase one command is still
pending and descriptor 2's registration does not exist, so the drain phase
does not pop every pending command before the wait. -/
theorem c3_drain_pops_single_command_cex :
    (loopIter c3Queue initState (.events [])).queue.length = 1 ∧
    regGet (loopIter c3Queue initState (.events [])).state.readevents 2 = some none ∧
    regGet (loopIter c3Queue initState (.events [])).state.readevents 1 =
      some (some (.ACCEPT (keepCb 10))) :=
  ⟨rfl, rfl, rfl⟩

/-- Claim C3 as amended: in every iteration of the reactor loop the drain
phase non-blockingly pops at most one pending command — exactly the queue
head — and the remaining commands stay queued for later iterations. -/
theorem c3_drain_pops_at_most_one_command (q : List ThreadMessage) (s : LoopState)
    (w : WaitResult) : (loopIter q s w).queue = q.tail :=
  loopIter_queue q s w

/-- Claim C4 (refuting evaluation): the callback registry is a fixed
ten-slot table indexed directly by the descriptor value, and processing a
registration command for descriptor 10 (or 12) indexes out of bounds — a
panic — rather than accommodating the descriptor, contradicting the claim
that the registry is a dynamic mapping keyed by descriptor. -/
theorem c4_fixed_table_oob_panic :
    initState.readevents.length = 10 ∧
    processMessage initState (.ADD_ACCEPT_EVENT 10 (keepCb 50)) = none ∧
    processMessage initState (.ADD_READ_EVENT 12 (keepCb 51)) = none :=
  ⟨rfl, rfl, rfl⟩

/-- Claim C5 (refuting evaluation): the wait-phase timeout passed to the
multiplexer is the fixed constant 100 ns — a near-zero constant independent
of any timer deadline, and not the indefinite (null) timeout — so the idle
reactor busy-spins, contradicting the claim. -/
theorem c5_wait_timeout_constant_100ns :
    waitTimeout = some ⟨0, 100⟩ ∧ waitTimeout ≠ none ∧
    waitTimeout.map (fun t => t.tv_sec * 1000000000 + t.tv_nsec) = some 100 :=
  ⟨rfl, by simp [waitTimeout], rfl⟩

/-- Claim C6 counterexample: a call to `accept` when the reactor thread is
gone (the channel receiver dropped) panics the calling thread instead of
returning a reportable error. -/
theorem c6_send_after_termination_panics_cex :
    executorAccept false 3 (keepCb 60) = CallOutcome.panicked := rfl

/-- Claim C6 as amended: for every call to `accept` or `read` made after
the reactor thread has terminated, the `unwrap` on the failed channel send
panics the calling thread; no error value is returned to the caller. -/
theorem c6_accept_read_panic_when_reactor_gone (fd : Int) (cbA cbR : Callback) :
    executorAccept false fd cbA = CallOutcome.panicked ∧
    executorRead false fd cbR = CallOutcome.panicked :=
  ⟨rfl, rfl⟩

/-- Claim C7: when the callback registered for a descriptor answers
`DELETE` during dispatch, that dispatch invokes it once, removes the
registration from the registry and the descriptor from the kqueue interest
set, and in every subsequent run of the loop — whatever readiness batches
the OS keeps reporting — no invocation of that descriptor ever occurs
again, as long as no new command re-registers it. -/
theorem c7_delete_removes_registration_forever
    (s : LoopState) (fd : Int) (cbt : CallbackType)
    (hreg : regGet s.readevents fd = some (some cbt))
    (hdel : cbt.cb.behavior cbt.cb.hits = EventControl.DELETE)
    (inputs : List IterInput) (q : List ThreadMessage)
    (hq : ∀ m ∈ q, m.targets fd = false)
    (hin : ∀ it ∈ inputs, ∀ m ∈ it.arrivals, m.targets fd = false) :
    (dispatchOnce s fd).2 = [(fd, cbt.cb.cbId)] ∧
    (dispatchOnce s fd).1.map (fun t => regGet t.readevents fd) = some (some none) ∧
    (dispatchOnce s fd).1.map (fun t => decide (fd ∈ t.kq)) = some false ∧
    (dispatchOnce s fd).1.map
      (fun t => (run inputs q t).trace.filter (fun p => p.1 == fd)) = some [] := by
  have h0 : 0 ≤ fd := regGet_nonneg hreg
  have hlt : fd.toNat < s.readevents.length := regGet_lt hreg
  have hafter : regGet (s.readevents.set fd.toNat none) fd = some none := by
    rw [regGet, if_pos h0]
    exact List.getElem?_set_eq_of_lt none hlt
  rw [dispatchOnce_delete hreg hdel]
  refine ⟨rfl, congrArg some hafter, congrArg some (decide_eq_false (not_mem_kqDel s.kq fd)), ?_⟩
  have hrun := run_unreg inputs q ⟨s.readevents.set fd.toNat none, kqDel s.kq fd⟩ hq hin hafter
  refine congrArg some (List.filter_eq_nil_iff.mpr ?_)
  intro p hp
  rw [beq_iff_eq]
  exact hrun p hp

/-- Witness for the C7 theorem: a delete-answering read callback at
descriptor 3, with a subsequent iteration whose wait still reports
descriptor 3 ready. -/
theorem c7_delete_removes_registration_forever_witness :
    (dispatchOnce c7State 3).2 = [(3, 70)] ∧
    (dispatchOnce c7State 3).1.map (fun t => regGet t.readevents 3) = some (some none) ∧
    (dispatchOnce c7State 3).1.map (fun t => decide ((3:Int) ∈ t.kq)) = some false ∧
    (dispatchOnce c7State 3).1.map
      (fun t => (run [⟨[], .events [3]⟩] [] t).trace.filter (fun p => p.1 == 3)) = some [] :=
  c7_delete_removes_registration_forever c7State 3 (.READ (deleteCb 70)) rfl rfl
    [⟨[], .events [3]⟩] [] (by intro m hm; simp at hm)
    (by intro it hit m hm; rw [List.mem_singleton] at hit; subst hit; simp at hm)

/-- Claim C8 (refuting evaluation): `execute` never returns normally after
enqueuing a command — its body panics unconditionally (the Rust
unimplemented stub), and the command type has no Execute variant at all —
contradicting the claim that `execute(callback)` returns after enqueuing an
Execute command. -/
theorem c8_execute_panics_unimplemented :
    executorExecute = ExecuteResult.panickedUnimplemented ∧
    ∀ m : ThreadMessage, executorExecute ≠ ExecuteResult.enqueued m := by
  refine ⟨rfl, ?_⟩
  intro m h
  exact ExecuteResult.noConfusion h

/-- Claim C9: for every unresolved Completion Cell and every pair of
`resolve` calls, the first call sets the result and the second is a no-op:
afterwards `is_ready` is true and the stored value is the first
resolution's value.  Settled against the spec-modelled cell, since the
repository's `Future` carries no implementation. -/
theorem c9_resolve_twice_keeps_first_value (α : Type) (c : CompletionCell α) (v1 v2 : α)
    (hfresh : c.is_ready = false) :
    ((c.resolve v1).resolve v2).is_ready = true ∧
    ((c.resolve v1).resolve v2).value = some v1 := by
  rcases hv : c.value with _ | x
  · have h1 : c.resolve v1 = ⟨some v1⟩ := by
      rw [CompletionCell.resolve, hv]
    rw [h1]
    exact ⟨rfl, rfl⟩
  · exfalso
    rw [CompletionCell.is_ready, hv] at hfresh
    simp at hfresh

/-- Witness for the C9 theorem at a fresh cell resolved with 1 then 2. -/
theorem c9_resolve_twice_keeps_first_value_witness :
    (((CompletionCell.new : CompletionCell Nat).resolve 1).resolve 2).is_ready = true ∧
    (((CompletionCell.new : CompletionCell Nat).resolve 1).resolve 2).value = some 1 :=
  c9_resolve_twice_keeps_first_value Nat CompletionCell.new 1 2 rfl

/-- Claim C10 counterexample: processing an `ADD_READ_EVENT` command for
descriptor 11 stores no registration at all — it panics on the out-of-bounds
index into the ten-slot table — so it is not the case that processing every
AddAccept/AddRead command stores a registration at its descriptor. -/
theorem c10_oob_descriptor_stores_nothing_cex :
    processMessage initState (.ADD_READ_EVENT 11 (keepCb 80)) = none := rfl

/-- Claim C10 as amended: for every registry state and every AddAccept or
AddRead command whose descriptor lies within the fixed ten-slot table,
processing the command stores exactly one registration at that descriptor —
silently replacing any previous registration there — and leaves every other
descriptor's slot unchanged; commands for descriptors outside the table
panic instead. -/
theorem c10_add_stores_single_registration (s : LoopState) (fd : Int)
    (cbA cbR : Callback) (h0 : 0 ≤ fd) (hb : fd.toNat < s.readevents.length) :
    (processMessage s (.ADD_ACCEPT_EVENT fd cbA)).map
        (fun r => regGet r.2.readevents fd) = some (some (some (.ACCEPT cbA))) ∧
    (processMessage s (.ADD_READ_EVENT fd cbR)).map
        (fun r => regGet r.2.readevents fd) = some (some (some (.READ cbR))) ∧
    (∀ g, g ≠ fd → (processMessage s (.ADD_ACCEPT_EVENT fd cbA)).map
        (fun r => regGet r.2.readevents g) = some (regGet s.readevents g)) ∧
    (∀ g, g ≠ fd → (processMessage s (.ADD_READ_EVENT fd cbR)).map
        (fun r => regGet r.2.readevents g) = some (regGet s.readevents g)) := by
  have hA : regSet s.readevents fd (some (.ACCEPT cbA)) =
      some (s.readevents.set fd.toNat (some (.ACCEPT cbA))) :=
    regSet_of_bounds _ h0 hb
  have hR : regSet s.readevents fd (some (.READ cbR)) =
      some (s.readevents.set fd.toNat (some (.READ cbR))) :=
    regSet_of_bounds _ h0 hb
  have hpA : processMessage s (.ADD_ACCEPT_EVENT fd cbA) =
      some (false, ⟨s.readevents.set fd.toNat (some (.ACCEPT cbA)), kqAdd s.kq fd⟩) := by
    rw [processMessage, hA]
  have hpR : processMessage s (.ADD_READ_EVENT fd cbR) =
      some (false, ⟨s.readevents.set fd.toNat (some (.READ cbR)), kqAdd s.kq fd⟩) := by
    rw [processMessage, hR]
  refine ⟨?_, ?_, ?_, ?_⟩
  · rw [hpA]
    exact congrArg some (regGet_regSet_self hA)
  · rw [hpR]
    exact congrArg some (regGet_regSet_self hR)
  · intro g hg
    rw [hpA]
    exact congrArg some (regGet_regSet_other hA hg)
  · intro g hg
    rw [hpR]
    exact congrArg some (regGet_regSet_other hR hg)

/-- Witness for the C10 theorem: replacing an existing accept registration
at descriptor 3 and observing slot 5 untouched. -/
theorem c10_add_stores_single_registration_witness :
    (processMessage c10State (.ADD_ACCEPT_EVENT 3 (keepCb 91))).map
        (fun r => regGet r.2.readevents 3) = some (some (some (.ACCEPT (keepCb 91)))) ∧
    (processMessage c10State (.ADD_READ_EVENT 3 (keepCb 92))).map
        (fun r => regGet r.2.readevents 3) = some (some (some (.READ (keepCb 92)))) ∧
    (processMessage c10State (.ADD_ACCEPT_EVENT 3 (keepCb 91))).map
        (fun r => regGet r.2.readevents 5) = some (regGet c10State.readevents 5) ∧
    (processMessage c10State (.ADD_READ_EVENT 3 (keepCb 92))).map
        (fun r => regGet r.2.readevents 5) = some (regGet c10State.readevents 5) := by
  obtain ⟨h1, h2, h3, h4⟩ := c10_add_stores_single_registration c10State 3 (keepCb 91)
    (keepCb 92) (by decide) (by decide)
  exact ⟨h1, h2, h3 5 (by decide), h4 5 (by decide)⟩

end Raio
